import Mathlib

/-!
# Service derivation (`packs/analyzer-base.go`)

A shallow embedding of the methods of `AnalyzerBase` and the properties they
satisfy.

Representation conventions.

* A Go `string` is a Lean `String`; `==` on strings is equality.
* A `[]*common.Service` whose elements are distinct, non-nil pointers is the
  list of the records pointed to; a service is identified by its position in
  the list.  Mutation in place of a service becomes replacement of the record
  at its position.
* Where the source returns a slice that may be the literal `nil`, the result
  is an `Option`: `none` is `nil`, `some l` a non-nil slice with elements `l`.
* An `error` is its message; `Option Error` is a Go `error` value, `none`
  being `nil`.
* The functions of package `common`, the analyzer callback and standard input
  are collaborators: they are parameters acting on an external state `σ`, and
  every call the source makes to one, like every write to standard output, is
  recorded in order in a trace.
-/

namespace Packs

/-- A Go `error`, identified with its message. -/
abbrev Error := String

/-- Modelled from the spec: the declaration of `common.EnvVar` (not in the
source file), a key/value pair. -/
structure EnvVar where
  Key : String
  Value : String
deriving DecidableEq

/-- Modelled from the spec: the declaration of `common.Service` (not in the
source file), with the six fields the data model lists.  The defaults are the
Go zero values, so `{ Name := n }` is `common.Service{Name: n}`. -/
structure Service where
  Name : String := ""
  Command : String := ""
  EnvVars : List EnvVar := []
  GitBranch : String := ""
  GitRepo : String := ""
  BuildRoot : String := ""
deriving DecidableEq

/-! ## `GetOrCreateWebService` -/

/-- The condition of the `if` in the search loop of `GetOrCreateWebService`:
`s.Name == "web" || s.Name == "custom_web"`. -/
def isWebService (s : Service) : Bool :=
  s.Name == "web" || s.Name == "custom_web"

/-- The search loop of `GetOrCreateWebService`: `service` is the first element
that satisfies the condition (`break`), or stays `nil`. -/
def findWebService : List Service → Option Service
  | [] => none
  | s :: rest => if isWebService s then some s else findWebService rest

/-- The method `AnalyzerBase.GetOrCreateWebService`: the returned service and
the list `*services` as the call leaves it. -/
def GetOrCreateWebService (services : List Service) : Service × List Service :=
  match findWebService services with
  | some service => (service, services)
  | none =>
    let service : Service := { Name := "web" }
    (service, services ++ [service])

/-- Number of services of a list whose name is `"web"` or `"custom_web"`. -/
def webCount (services : List Service) : Nat :=
  services.countP isWebService

/-! ## Collaborators, external state and the trace -/

/-- Modelled from the spec: the declaration of `common.Process` (not in the
source file), the name/command pair of one Procfile entry. -/
structure Process where
  Name : String
  Command : String
deriving DecidableEq

/-- Modelled from the spec: the declaration of `common.Lister` (not in the
source file), a list of strings read through its field `Items`. -/
structure Lister where
  Items : List String := []
deriving DecidableEq

/-- Modelled from the spec: `common.Lister.Add` (not in the source file), which
adds each of its variadic arguments, in order, as an additional entry. -/
def Lister.Add (l : Lister) (items : List String) : Lister :=
  { Items := l.Items ++ items }

/-- What the code of `analyzer-base.go` does to the outside, in order: a write
to standard output, or a call of a collaborator with its arguments. -/
inductive Event where
  | print (text : String)
  | fileExists (path : String)
  | parseProcfile (path : String)
  | fillServices (services : List Service)
  | parseEnvironmentVariables (command : String)
  | parseUniqueInt (command : String)
  | askYesOrNo (level message : String) (defaultValue shouldPrompt : Bool)
  | readString
deriving DecidableEq

/-- The state the code runs in: the state `ext` of the collaborators (file
system, standard input, counters) and the trace of events so far, oldest
first. -/
structure World (σ : Type) where
  ext : σ
  trace : List Event

/-- The constants and functions of package `common` and of the Go standard
library that the source uses and that are not in the source file.  A function
takes its Go arguments and the external state, and returns its Go results
(a pair for a `(value, error)` result) and the new external state. -/
structure Externals (σ : Type) where
  MsgL1 : String
  MsgL2 : String
  MsgReset : String
  MsgError : String
  /-- The function `filepath.Join` on two elements. -/
  Join : String → String → String
  FileExists : String → σ → Bool × σ
  ParseProcfile : String → σ → (List Process × Option Error) × σ
  ParseEnvironmentVariables : String → σ → (String × Option Error) × σ
  ParseUniqueInt : String → σ → (String × Option Error) × σ
  AskYesOrNo : String → String → Bool → Bool → σ → Bool × σ
  /-- The call `bufio.NewReader(os.Stdin).ReadString` with delimiter newline. -/
  ReadString : σ → (String × Option Error) × σ

/-- The interface `Analyzer`, of which the source uses the one method
`FillServices(services *[]*common.Service) error`: it receives the list, and
returns the list as it leaves it and its error. -/
structure Analyzer (σ : Type) where
  FillServices : List Service → σ → (List Service × Option Error) × σ

/-- The fields of `AnalyzerBase` that the embedded methods read. -/
structure AnalyzerBase where
  RootDir : String := ""
  Environment : String := ""
  ShouldPrompt : Bool := false

variable {σ : Type}

/-- Append one event to the trace. -/
def World.log (w : World σ) (e : Event) : World σ :=
  { w with trace := w.trace ++ [e] }

/-- The function `fmt.Println` on string operands: the operands separated by
single spaces, then a newline. -/
def Println (operands : List String) (w : World σ) : World σ :=
  w.log (.print (" ".intercalate operands ++ "\n"))

/-- The functions `fmt.Print` and `fmt.Printf` once the format is expanded: the
text is written as it is. -/
def Print (text : String) (w : World σ) : World σ :=
  w.log (.print text)

/-- A call of `common.FileExists`. -/
def callFileExists (X : Externals σ) (path : String) (w : World σ) : Bool × World σ :=
  let r := X.FileExists path w.ext
  (r.1, { ext := r.2, trace := w.trace ++ [.fileExists path] })

/-- A call of `common.ParseProcfile`. -/
def callParseProcfile (X : Externals σ) (path : String) (w : World σ) :
    (List Process × Option Error) × World σ :=
  let r := X.ParseProcfile path w.ext
  (r.1, { ext := r.2, trace := w.trace ++ [.parseProcfile path] })

/-- A call of `common.ParseEnvironmentVariables`. -/
def callParseEnvironmentVariables (X : Externals σ) (command : String) (w : World σ) :
    (String × Option Error) × World σ :=
  let r := X.ParseEnvironmentVariables command w.ext
  (r.1, { ext := r.2, trace := w.trace ++ [.parseEnvironmentVariables command] })

/-- A call of `common.ParseUniqueInt`. -/
def callParseUniqueInt (X : Externals σ) (command : String) (w : World σ) :
    (String × Option Error) × World σ :=
  let r := X.ParseUniqueInt command w.ext
  (r.1, { ext := r.2, trace := w.trace ++ [.parseUniqueInt command] })

/-- A call of `common.AskYesOrNo`. -/
def callAskYesOrNo (X : Externals σ) (level message : String)
    (defaultValue shouldPrompt : Bool) (w : World σ) : Bool × World σ :=
  let r := X.AskYesOrNo level message defaultValue shouldPrompt w.ext
  (r.1, { ext := r.2,
          trace := w.trace ++ [.askYesOrNo level message defaultValue shouldPrompt] })

/-- A call of `reader.ReadString` with delimiter newline on standard input. -/
def callReadString (X : Externals σ) (w : World σ) : (String × Option Error) × World σ :=
  let r := X.ReadString w.ext
  (r.1, { ext := r.2, trace := w.trace ++ [.readString] })

/-- A call of the analyzer's `FillServices`. -/
def callFillServices (a : Analyzer σ) (services : List Service) (w : World σ) :
    (List Service × Option Error) × World σ :=
  let r := a.FillServices services w.ext
  (r.1, { ext := r.2, trace := w.trace ++ [.fillServices services] })

/-! ## `strings.Fields` -/

/-- The function `unicode.IsSpace`: in Latin-1 the characters tab, newline,
vertical tab, form feed, carriage return, space, U+0085 and U+00A0; beyond
Latin-1 the code points of the Unicode property White_Space. -/
def isSpace (r : Char) : Bool :=
  let n := r.toNat
  if n ≤ 0xFF then
    n == 0x09 || n == 0x0A || n == 0x0B || n == 0x0C || n == 0x0D || n == 0x20 ||
      n == 0x85 || n == 0xA0
  else
    n == 0x1680 || (0x2000 ≤ n && n ≤ 0x200A) || n == 0x2028 || n == 0x2029 ||
      n == 0x202F || n == 0x205F || n == 0x3000

/-- The scan of `strings.Fields`: `cur` is the field being read, which a white
space character ends; empty fields are not produced. -/
def fieldsLoop : List Char → List Char → List String
  | [], cur => if cur.isEmpty then [] else [String.mk cur]
  | c :: cs, cur =>
    if isSpace c then
      if cur.isEmpty then fieldsLoop cs [] else String.mk cur :: fieldsLoop cs []
    else fieldsLoop cs (cur ++ [c])

/-- The function `strings.Fields`: the maximal runs of characters of `s` that
are not white space, in order. -/
def Fields (s : String) : List String :=
  fieldsLoop s.data []

/-! ## `ConfirmDatabases` -/

/-- The body of the `for` loop of `ConfirmDatabases`, run over the detected
entries in order; `dbs` is the list built so far. -/
def confirmLoop (X : Externals σ) (a : AnalyzerBase) :
    List String → Lister → World σ → Lister × World σ
  | [], dbs, w => (dbs, w)
  | db :: rest, dbs, w =>
    let w1 := if !a.ShouldPrompt then
        Println [X.MsgL2, "----> Found " ++ db, X.MsgReset] w
      else w
    let r := callAskYesOrNo X X.MsgL2 ("----> Found " ++ db ++ ", confirm?") true
      a.ShouldPrompt w1
    let dbs1 := if r.1 then dbs.Add [db] else dbs
    confirmLoop X a rest dbs1 r.2

/-- The method `AnalyzerBase.ConfirmDatabases`. -/
def ConfirmDatabases (X : Externals σ) (a : AnalyzerBase) (foundDbs : Lister)
    (w : World σ) : Lister × World σ :=
  let r := confirmLoop X a foundDbs.Items {} w
  let dbs := r.1
  let message :=
    if foundDbs.Items.length > 0 then "Add any other databases?"
    else "No databases found. Add manually?"
  let defaultValue := if foundDbs.Items.length > 0 then false else true
  let q := callAskYesOrNo X X.MsgL1 message defaultValue a.ShouldPrompt r.2
  if q.1 && a.ShouldPrompt then
    let w1 := Println [X.MsgL1,
      "  See http://help.cloud66.com/building-your-stack/docker-service-configuration#database-configs for complete list of possible values",
      X.MsgReset] q.2
    let w2 := Println [X.MsgL1, "  Example: \x27mysql elasticsearch\x27 ", X.MsgReset] w1
    let w3 := Print " > " w2
    let rd := callReadString X w3
    match rd.1.2 with
    | none => (dbs.Add (Fields rd.1.1), rd.2)
    | some _ => (dbs, rd.2)
  else (dbs, q.2)

/-! ## `analyzeProcfile` -/

/-- The `for` loop of `analyzeProcfile` over the parsed entries; `services` is
the list built so far. -/
def procfileLoop (X : Externals σ) :
    List Process → List Service → World σ → List Service × World σ
  | [], services, w => (services, w)
  | proc :: rest, services, w =>
    let w1 := Print (X.MsgL2 ++ " ----> Found Procfile item " ++ proc.Name ++ "\n") w
    procfileLoop X rest
      (services ++ [{ Name := proc.Name, Command := proc.Command }]) w1

/-- The method `AnalyzerBase.analyzeProcfile`. -/
def analyzeProcfile (X : Externals σ) (a : AnalyzerBase) (w : World σ) :
    (Option (List Service) × Option Error) × World σ :=
  let services : List Service := []
  let procfilePath := X.Join a.RootDir "Procfile"
  let e := callFileExists X procfilePath w
  if !e.1 then ((some services, none), e.2)
  else
    let w1 := Println [X.MsgL1, "Parsing Procfile"] e.2
    let p := callParseProcfile X procfilePath w1
    match p.1.2 with
    | some err => ((none, some err), p.2)
    | none =>
      let l := procfileLoop X p.1.1 services p.2
      ((some l.1, none), l.2)

/-! ## `refineServices` -/

/-- The first statement of the loop body of `refineServices`: the command is
assigned the string `ParseEnvironmentVariables` returns, and a returned error
is printed. -/
def refineEnvironmentVariables (X : Externals σ) (service : Service) (w : World σ) :
    Service × World σ :=
  let r := callParseEnvironmentVariables X service.Command w
  let service1 := { service with Command := r.1.1 }
  match r.1.2 with
  | some err =>
    (service1, Print (X.MsgError ++
      " Failed to replace environment variable placeholder due to " ++ err ++ "\n") r.2)
  | none => (service1, r.2)

/-- The second statement of the loop body of `refineServices`: the command is
assigned the string `ParseUniqueInt` returns, and a returned error is
printed. -/
def refineUniqueInt (X : Externals σ) (service : Service) (w : World σ) :
    Service × World σ :=
  let r := callParseUniqueInt X service.Command w
  let service1 := { service with Command := r.1.1 }
  match r.1.2 with
  | some err =>
    (service1, Print (X.MsgError ++
      " Failed to replace UNIQUE_INT variable placeholder due to " ++ err ++ "\n") r.2)
  | none => (service1, r.2)

/-- The loop body of `refineServices` on one service. -/
def refineService (X : Externals σ) (service : Service) (w : World σ) :
    Service × World σ :=
  let r := refineEnvironmentVariables X service w
  refineUniqueInt X r.1 r.2

/-- The method `AnalyzerBase.refineServices`: the services as the loop leaves
them, in the order of the list. -/
def refineServices (X : Externals σ) : List Service → World σ → List Service × World σ
  | [], w => ([], w)
  | service :: rest, w =>
    let r := refineService X service w
    let t := refineServices X rest r.2
    (r.1 :: t.1, t.2)

/-! ## `inheritProjectContext` -/

/-- The loop body of `inheritProjectContext` on one service. -/
def inheritService (envVars : List EnvVar) (gitBranch gitURL buildRoot : String)
    (service : Service) : Service :=
  { service with
    EnvVars := envVars, GitBranch := gitBranch, GitRepo := gitURL, BuildRoot := buildRoot }

/-- The method `AnalyzerBase.inheritProjectContext`. -/
def inheritProjectContext (services : List Service) (envVars : List EnvVar)
    (gitBranch gitURL buildRoot : String) : List Service :=
  services.map (inheritService envVars gitBranch gitURL buildRoot)

/-! ## `AnalyzeServices` -/

/-- What a call of `AnalyzeServices` leaves: its two results, the local
variable `services` at the `return` (the services as they are in memory, the
empty list when the variable is `nil`), and the world. -/
structure Outcome (σ : Type) where
  result : Option (List Service)
  err : Option Error
  services : List Service
  world : World σ

/-- The method `AnalyzerBase.AnalyzeServices`. -/
def AnalyzeServices (X : Externals σ) (b : AnalyzerBase) (a : Analyzer σ)
    (envVars : List EnvVar) (gitBranch gitURL buildRoot : String) (w : World σ) :
    Outcome σ :=
  let p := analyzeProcfile X b w
  match p.1.2 with
  | some err =>
    { result := none, err := some err, services := p.1.1.getD [],
      world := Print (X.MsgError ++ " Failed to parse Procfile due to " ++ err ++ "\n") p.2 }
  | none =>
    let f := callFillServices a (p.1.1.getD []) p.2
    match f.1.2 with
    | some err => { result := none, err := some err, services := f.1.1, world := f.2 }
    | none =>
      let r := refineServices X f.1.1 f.2
      let services := inheritProjectContext r.1 envVars gitBranch gitURL buildRoot
      { result := some services, err := none, services := services, world := r.2 }

/-! ## Vocabulary of the properties -/

/-- Whether an event is a call of the analyzer's `FillServices`. -/
def Event.isFillServices : Event → Bool
  | .fillServices _ => true
  | _ => false

/-- Whether an event is a call of one of the two substitution passes. -/
def Event.isSubstitution : Event → Bool
  | .parseEnvironmentVariables _ => true
  | .parseUniqueInt _ => true
  | _ => false

/-- Whether an event is a call of the Procfile parser. -/
def Event.isParseProcfile : Event → Bool
  | .parseProcfile _ => true
  | _ => false

/-- Whether an event is a read of a line of standard input by
`ConfirmDatabases`. -/
def Event.isReadString : Event → Bool
  | .readString => true
  | _ => false

/-- Whether an event is a write to standard output. -/
def Event.isPrint : Event → Bool
  | .print _ => true
  | _ => false

/-- The service `analyzeProcfile` makes of a parsed entry: its name and its
command, every other field at its zero value. -/
def serviceOfProcess (proc : Process) : Service :=
  { Name := proc.Name, Command := proc.Command, EnvVars := [], GitBranch := "",
    GitRepo := "", BuildRoot := "" }

/-! ## The interactive confirmation workflow, in the words of the specification

The result `ConfirmDatabases` is compared with: the accepted entries in
detection order, then the entries added by hand. -/

/-- The answers `AskYesOrNo` gives in interactive mode to the confirmation
prompts of the detected entries, asked in detection order, and the world after
the last of them. -/
def confirmationAnswers (X : Externals σ) : List String → World σ → List Bool × World σ
  | [], w => ([], w)
  | db :: rest, w =>
    let r := callAskYesOrNo X X.MsgL2 ("----> Found " ++ db ++ ", confirm?") true true w
    let t := confirmationAnswers X rest r.2
    (r.1 :: t.1, t.2)

/-- The detected entries whose confirmation was accepted, in detection
order. -/
def acceptedEntries : List String → List Bool → List String
  | db :: rest, answer :: answers =>
    if answer then db :: acceptedEntries rest answers else acceptedEntries rest answers
  | _, _ => []

/-- The answer, and the external state it leaves, to the closing prompt of
the interactive workflow, asked after the confirmations: its default is false
if the detected list is non-empty and true if it is empty. -/
def addOthersAnswer (X : Externals σ) (found : List String) (w : World σ) : Bool × σ :=
  X.AskYesOrNo X.MsgL1
    (if found.isEmpty then "No databases found. Add manually?"
      else "Add any other databases?")
    found.isEmpty true (confirmationAnswers X found w).2.ext

/-- The entries added by hand in the interactive workflow: the
whitespace-separated tokens of the one input line when the closing prompt was
answered affirmatively and the read succeeded, nothing when it was declined or
the read failed. -/
def manualEntries (X : Externals σ) (found : List String) (w : World σ) : List String :=
  if (addOthersAnswer X found w).1 then
    match (X.ReadString (addOthersAnswer X found w).2).1 with
    | (line, none) => Fields line
    | (_, some _) => []
  else []

/-! ## Sample collaborators

Concrete collaborators on which the embedding can be evaluated. -/

/-- A sample external state: the characters still to be read on standard
input, and the Procfile, `none` when the file does not exist and otherwise what
the parser returns for it. -/
structure Sample where
  stdin : List Char
  procfile : Option (List Process × Option Error)

/-- The characters up to and including the first newline, and those after it;
`none` when there is no newline. -/
def takeLine : List Char → Option (List Char × List Char)
  | [] => none
  | c :: cs =>
    if c = '\n' then some ([c], cs)
    else match takeLine cs with
      | some (line, rest) => some (c :: line, rest)
      | none => none

/-- Sample `ReadString`: the next line with its newline, or what is left of the
input and the error `EOF` when no newline is left. -/
def sampleReadString (s : Sample) : (String × Option Error) × Sample :=
  match takeLine s.stdin with
  | some (line, rest) => ((String.mk line, none), { s with stdin := rest })
  | none => ((String.mk s.stdin, some "EOF"), { s with stdin := [] })

/-- Sample `AskYesOrNo`: the default without any input when not interactive;
otherwise one line is read, an empty line is the default, `y` and `yes` are
yes and anything else is no. -/
def sampleAskYesOrNo (_level _message : String) (defaultValue shouldPrompt : Bool)
    (s : Sample) : Bool × Sample :=
  if !shouldPrompt then (defaultValue, s)
  else
    let r := sampleReadString s
    if r.1.1 == "\n" || r.1.1 == "" then (defaultValue, r.2)
    else (r.1.1 == "y\n" || r.1.1 == "yes\n", r.2)

/-- Sample collaborators.  The environment pass fails on a command with a
dollar sign and the unique-integer pass on one with a hash sign, each returning
the empty string with its error; otherwise either returns its input. -/
def sampleExternals : Externals Sample where
  MsgL1 := "[1]"
  MsgL2 := "[2]"
  MsgReset := "[0]"
  MsgError := "[E]"
  Join := fun dir name => dir ++ "/" ++ name
  FileExists := fun _ s => (s.procfile.isSome, s)
  ParseProcfile := fun _ s => (s.procfile.getD ([], some "no such file"), s)
  ParseEnvironmentVariables := fun command s =>
    if command.data.contains '$' then (("", some "variable is not defined"), s)
    else ((command, none), s)
  ParseUniqueInt := fun command s =>
    if command.data.contains '#' then (("", some "no integer available"), s)
    else ((command, none), s)
  AskYesOrNo := sampleAskYesOrNo
  ReadString := sampleReadString

/-- A sample analyzer that adds a `worker` service and succeeds. -/
def workerAnalyzer : Analyzer Sample where
  FillServices := fun services s =>
    ((services ++ [{ Name := "worker", Command := "rake jobs:work" }], none), s)

/-- A sample analyzer that adds a `worker` service and then fails. -/
def failingAnalyzer : Analyzer Sample where
  FillServices := fun services s =>
    ((services ++ [{ Name := "worker", Command := "rake $JOBS" }],
      some "unsupported framework"), s)

/-- A sample world: the given standard input and Procfile, and no event yet. -/
def sampleWorld (stdin : String) (procfile : Option (List Process × Option Error)) :
    World Sample :=
  { ext := { stdin := stdin.data, procfile := procfile }, trace := [] }

/-! # Properties -/

/-! ### Lemmas on the search loop -/

lemma findWebService_eq_find (l : List Service) :
    findWebService l = l.find? isWebService := by
  induction l with
  | nil => rfl
  | cons s rest ih =>
    simp only [findWebService, List.find?_cons]
    cases h : isWebService s <;> simp [ih]

lemma findWebService_none_iff (l : List Service) :
    findWebService l = none ↔ ∀ s ∈ l, isWebService s = false := by
  rw [findWebService_eq_find]
  simp

lemma findWebService_append_of_none {l : List Service}
    (h : findWebService l = none) (m : List Service) :
    findWebService (l ++ m) = findWebService m := by
  rw [findWebService_eq_find] at h
  rw [findWebService_eq_find, findWebService_eq_find]
  simp [List.find?_append, h]

/-- The service the search loop stops at is the first element of the list,
in list order, that satisfies the condition. -/
lemma findWebService_first {l : List Service} {s : Service}
    (h : findWebService l = some s) :
    ∃ i : Nat, l[i]? = some s ∧ isWebService s = true ∧
      ∀ j : Nat, j < i → ∀ t, l[j]? = some t → isWebService t = false := by
  induction l with
  | nil => simp [findWebService] at h
  | cons a rest ih =>
    simp only [findWebService] at h
    by_cases ha : isWebService a = true
    · simp only [ha, if_true, Option.some.injEq] at h
      subst h
      exact ⟨0, by simp, ha, by intro j hj; omega⟩
    · simp only [ha] at h
      obtain ⟨i, hi, hw, hlt⟩ := ih (by simpa using h)
      refine ⟨i + 1, by simpa using hi, hw, ?_⟩
      intro j hj t ht
      cases j with
      | zero =>
        simp only [List.getElem?_cons_zero, Option.some.injEq] at ht
        subst ht
        simpa using ha
      | succ k =>
        exact hlt k (by omega) t (by simpa using ht)

lemma webCount_eq_zero_iff (l : List Service) :
    webCount l = 0 ↔ findWebService l = none := by
  rw [findWebService_none_iff, webCount, List.countP_eq_zero]
  simp

lemma GetOrCreateWebService_of_none {l : List Service} (h : findWebService l = none) :
    GetOrCreateWebService l = ({ Name := "web" }, l ++ [{ Name := "web" }]) := by
  simp [GetOrCreateWebService, h]

lemma GetOrCreateWebService_of_some {l : List Service} {s : Service}
    (h : findWebService l = some s) : GetOrCreateWebService l = (s, l) := by
  simp [GetOrCreateWebService, h]

lemma isWebService_iff (s : Service) :
    isWebService s = true ↔ s.Name = "web" ∨ s.Name = "custom_web" := by
  simp [isWebService]

lemma isWebService_eq_false_iff (s : Service) :
    isWebService s = false ↔ s.Name ≠ "web" ∧ s.Name ≠ "custom_web" := by
  simp [isWebService]

/-- In the list a call leaves, the returned service stands at the first
position, in list order, whose service is named `"web"` or `"custom_web"`. -/
lemma GetOrCreateWebService_position (l : List Service) :
    ∃ i : Nat, (GetOrCreateWebService l).2[i]? = some (GetOrCreateWebService l).1 ∧
      isWebService (GetOrCreateWebService l).1 = true ∧
      ∀ j : Nat, j < i → ∀ t, (GetOrCreateWebService l).2[j]? = some t →
        isWebService t = false := by
  cases h : findWebService l with
  | some s =>
    rw [GetOrCreateWebService_of_some h]
    exact findWebService_first h
  | none =>
    rw [GetOrCreateWebService_of_none h]
    refine ⟨l.length, by simp, rfl, ?_⟩
    intro j hj t ht
    rw [List.getElem?_append_left hj] at ht
    exact (findWebService_none_iff l).1 h t (List.getElem?_mem ht)

/-- The list a call leaves always has a service the search loop finds: the
one the call returned. -/
lemma findWebService_after (l : List Service) :
    findWebService (GetOrCreateWebService l).2 = some (GetOrCreateWebService l).1 := by
  cases h : findWebService l with
  | some s =>
    rw [GetOrCreateWebService_of_some h]
    exact h
  | none =>
    rw [GetOrCreateWebService_of_none h, findWebService_append_of_none h]
    rfl

/-- C1: `GetOrCreateWebService` is idempotent.  For every service list, a second
call on the list the first call left leaves that list unchanged (same length,
same services in the same order) and returns the service the first call
returned, which in both lists stands at the same position, the first one whose
service is named `"web"` or `"custom_web"`; the number of such services does
not grow, so no second `"web"` service is appended. -/
theorem GetOrCreateWebService_idempotent (services : List Service) :
    GetOrCreateWebService (GetOrCreateWebService services).2 =
        GetOrCreateWebService services ∧
      (GetOrCreateWebService (GetOrCreateWebService services).2).2 =
        (GetOrCreateWebService services).2 ∧
      (GetOrCreateWebService (GetOrCreateWebService services).2).2.length =
        (GetOrCreateWebService services).2.length ∧
      (GetOrCreateWebService (GetOrCreateWebService services).2).1 =
        (GetOrCreateWebService services).1 ∧
      webCount (GetOrCreateWebService (GetOrCreateWebService services).2).2 =
        webCount (GetOrCreateWebService services).2 ∧
      ∃ i : Nat,
        (GetOrCreateWebService services).2[i]? = some (GetOrCreateWebService services).1 ∧
        (GetOrCreateWebService (GetOrCreateWebService services).2).2[i]? =
          some (GetOrCreateWebService (GetOrCreateWebService services).2).1 ∧
        ∀ j : Nat, j < i → ∀ t, (GetOrCreateWebService services).2[j]? = some t →
          isWebService t = false := by
  have key : GetOrCreateWebService (GetOrCreateWebService services).2 =
      GetOrCreateWebService services :=
    GetOrCreateWebService_of_some (findWebService_after services)
  obtain ⟨i, hi, _, hlt⟩ := GetOrCreateWebService_position services
  refine ⟨key, by rw [key], by rw [key], by rw [key], by rw [key], i, hi, ?_, hlt⟩
  rw [key]
  exact hi

/-- C2: `GetOrCreateWebService` is find-or-create.  If no service of the list
is named `"web"` or `"custom_web"`, the list afterwards is the original list
with exactly one service appended at the end, named `"web"` with an empty
command (and every other field zero), and that service is returned.  If some
service has one of those names, the list is unchanged and the returned service
is the first one in list order that has such a name. -/
theorem GetOrCreateWebService_find_or_create (services : List Service) :
    ((∀ s ∈ services, s.Name ≠ "web" ∧ s.Name ≠ "custom_web") →
        (GetOrCreateWebService services).2 =
            services ++ [{ Name := "web", Command := "", EnvVars := [], GitBranch := "",
                           GitRepo := "", BuildRoot := "" }] ∧
          (GetOrCreateWebService services).2.length = services.length + 1 ∧
          (GetOrCreateWebService services).1 =
            { Name := "web", Command := "", EnvVars := [], GitBranch := "",
              GitRepo := "", BuildRoot := "" } ∧
          (GetOrCreateWebService services).2[services.length]? =
            some (GetOrCreateWebService services).1) ∧
      ((∃ s ∈ services, s.Name = "web" ∨ s.Name = "custom_web") →
        (GetOrCreateWebService services).2 = services ∧
          ∃ i : Nat, services[i]? = some (GetOrCreateWebService services).1 ∧
            ((GetOrCreateWebService services).1.Name = "web" ∨
              (GetOrCreateWebService services).1.Name = "custom_web") ∧
            ∀ j : Nat, j < i → ∀ t, services[j]? = some t →
              t.Name ≠ "web" ∧ t.Name ≠ "custom_web") := by
  constructor
  · intro hnone
    have h : findWebService services = none :=
      (findWebService_none_iff services).2
        (fun s hs => (isWebService_eq_false_iff s).2 (hnone s hs))
    rw [GetOrCreateWebService_of_none h]
    exact ⟨rfl, by simp, rfl, by simp⟩
  · rintro ⟨s, hs, hname⟩
    cases h : findWebService services with
    | none =>
      have := (findWebService_none_iff services).1 h s hs
      rw [(isWebService_iff s).2 hname] at this
      exact absurd this (by decide)
    | some t =>
      rw [GetOrCreateWebService_of_some h]
      obtain ⟨i, hi, hw, hlt⟩ := findWebService_first h
      exact ⟨rfl, i, hi, (isWebService_iff t).1 hw,
        fun j hj u hu => (isWebService_eq_false_iff u).1 (hlt j hj u hu)⟩

/-- Witness of C2 on a list without a web service and on a list with two. -/
theorem GetOrCreateWebService_find_or_create_witness :
    (GetOrCreateWebService [{ Name := "worker", Command := "rake jobs:work" }]).2 =
        [{ Name := "worker", Command := "rake jobs:work" }, { Name := "web" }] ∧
      (GetOrCreateWebService
          [{ Name := "worker" }, { Name := "custom_web", Command := "puma" },
            { Name := "web", Command := "rackup" }]).2 =
        [{ Name := "worker" }, { Name := "custom_web", Command := "puma" },
          { Name := "web", Command := "rackup" }] :=
  ⟨((GetOrCreateWebService_find_or_create
        [{ Name := "worker", Command := "rake jobs:work" }]).1 (by decide)).1,
    ((GetOrCreateWebService_find_or_create
        [{ Name := "worker" }, { Name := "custom_web", Command := "puma" },
          { Name := "web", Command := "rackup" }]).2
      ⟨{ Name := "web", Command := "rackup" }, by decide, by decide⟩).1⟩

lemma webCount_after (l : List Service) :
    webCount (GetOrCreateWebService l).2 = max 1 (webCount l) := by
  cases h : findWebService l with
  | some s =>
    rw [GetOrCreateWebService_of_some h]
    have : webCount l ≠ 0 := by
      rw [Ne, webCount_eq_zero_iff, h]
      simp
    show webCount l = max 1 (webCount l)
    omega
  | none =>
    rw [GetOrCreateWebService_of_none h]
    have h0 : webCount l = 0 := (webCount_eq_zero_iff l).2 h
    have h1 : webCount (l ++ [({ Name := "web" } : Service)]) = webCount l + 1 := by
      simp [webCount, List.countP_append, List.countP_cons, isWebService]
    rw [h1, h0]
    rfl

/-- C3, as stated, fails: on a list that already holds a service named `"web"`
and one named `"custom_web"` the call finds the first and changes nothing, so
two services with a name in the set remain. -/
theorem GetOrCreateWebService_two_web_services :
    (GetOrCreateWebService
        [{ Name := "web", Command := "rackup" },
          { Name := "custom_web", Command := "puma" }]).2 =
        [{ Name := "web", Command := "rackup" },
          { Name := "custom_web", Command := "puma" }] ∧
      webCount (GetOrCreateWebService
        [{ Name := "web", Command := "rackup" },
          { Name := "custom_web", Command := "puma" }]).2 = 2 ∧
      ¬ ∀ services : List Service, webCount (GetOrCreateWebService services).2 = 1 := by
  refine ⟨by decide, by decide, fun h => ?_⟩
  have h2 := h [{ Name := "web", Command := "rackup" },
    { Name := "custom_web", Command := "puma" }]
  revert h2
  decide

/-- C3, amended: after `GetOrCreateWebService` the number of services with a
name in `{"web", "custom_web"}` is the number before the call, or one if there
was none; so at least one such service exists, none is removed, and there is
exactly one precisely when the list held at most one before. -/
theorem GetOrCreateWebService_webCount (services : List Service) :
    webCount (GetOrCreateWebService services).2 = max 1 (webCount services) ∧
      1 ≤ webCount (GetOrCreateWebService services).2 ∧
      (webCount (GetOrCreateWebService services).2 = 1 ↔ webCount services ≤ 1) := by
  have h := webCount_after services
  refine ⟨h, by omega, by omega⟩

/-! ## `inheritProjectContext` -/

/-- C5: `inheritProjectContext` stamps every service unconditionally.  For
every service list and every `(envVars, gitBranch, gitURL, buildRoot)` the list
keeps its length, each service afterwards has `EnvVars`, `GitBranch`, `GitRepo`
and `BuildRoot` equal to those arguments whatever they held before, its name
and command being kept; and a second call with other metadata leaves each
service with the second call's metadata only, as if the first call had not
been made. -/
theorem inheritProjectContext_overwrites (services : List Service)
    (envVars : List EnvVar) (gitBranch gitURL buildRoot : String) :
    (inheritProjectContext services envVars gitBranch gitURL buildRoot).length =
        services.length ∧
      (∀ s ∈ inheritProjectContext services envVars gitBranch gitURL buildRoot,
        s.EnvVars = envVars ∧ s.GitBranch = gitBranch ∧ s.GitRepo = gitURL ∧
          s.BuildRoot = buildRoot) ∧
      (∀ (i : Nat) (s : Service), services[i]? = some s →
        (inheritProjectContext services envVars gitBranch gitURL buildRoot)[i]? =
          some { Name := s.Name, Command := s.Command, EnvVars := envVars,
                 GitBranch := gitBranch, GitRepo := gitURL, BuildRoot := buildRoot }) ∧
      (∀ (envVars2 : List EnvVar) (gitBranch2 gitURL2 buildRoot2 : String),
        inheritProjectContext
            (inheritProjectContext services envVars gitBranch gitURL buildRoot)
            envVars2 gitBranch2 gitURL2 buildRoot2 =
          inheritProjectContext services envVars2 gitBranch2 gitURL2 buildRoot2 ∧
        ∀ s ∈ inheritProjectContext
            (inheritProjectContext services envVars gitBranch gitURL buildRoot)
            envVars2 gitBranch2 gitURL2 buildRoot2,
          s.EnvVars = envVars2 ∧ s.GitBranch = gitBranch2 ∧ s.GitRepo = gitURL2 ∧
            s.BuildRoot = buildRoot2) := by
  refine ⟨by simp [inheritProjectContext], ?_, ?_, ?_⟩
  · intro s hs
    simp only [inheritProjectContext, List.mem_map] at hs
    obtain ⟨t, _, rfl⟩ := hs
    exact ⟨rfl, rfl, rfl, rfl⟩
  · intro i s hs
    simp [inheritProjectContext, hs, inheritService]
  · intro envVars2 gitBranch2 gitURL2 buildRoot2
    constructor
    · simp only [inheritProjectContext, List.map_map]
      rfl
    · intro s hs
      simp only [inheritProjectContext, List.mem_map] at hs
      obtain ⟨t, _, rfl⟩ := hs
      exact ⟨rfl, rfl, rfl, rfl⟩

/-! ## `analyzeProcfile` -/

lemma procfileLoop_fst (X : Externals σ) (procs : List Process) (acc : List Service)
    (w : World σ) :
    (procfileLoop X procs acc w).1 = acc ++ procs.map serviceOfProcess := by
  induction procs generalizing acc w with
  | nil => simp [procfileLoop]
  | cons p rest ih =>
    simp only [procfileLoop, ih, List.map_cons, List.append_assoc]
    rfl

lemma procfileLoop_snd (X : Externals σ) (procs : List Process) (acc : List Service)
    (w : World σ) :
    (procfileLoop X procs acc w).2 =
      { ext := w.ext,
        trace := w.trace ++ procs.map fun p =>
          Event.print (X.MsgL2 ++ " ----> Found Procfile item " ++ p.Name ++ "\n") } := by
  induction procs generalizing acc w with
  | nil => simp [procfileLoop]
  | cons p rest ih =>
    simp only [procfileLoop, ih, List.map_cons]
    simp [Print, World.log]

lemma analyzeProcfile_missing (X : Externals σ) (a : AnalyzerBase) (w : World σ)
    (h : (X.FileExists (X.Join a.RootDir "Procfile") w.ext).1 = false) :
    analyzeProcfile X a w =
      ((some [], none),
        { ext := (X.FileExists (X.Join a.RootDir "Procfile") w.ext).2,
          trace := w.trace ++ [.fileExists (X.Join a.RootDir "Procfile")] }) := by
  simp [analyzeProcfile, callFileExists, h]

lemma analyzeProcfile_parsed (X : Externals σ) (a : AnalyzerBase) (w : World σ)
    (procs : List Process)
    (h : (X.FileExists (X.Join a.RootDir "Procfile") w.ext).1 = true)
    (hp : (X.ParseProcfile (X.Join a.RootDir "Procfile")
      (X.FileExists (X.Join a.RootDir "Procfile") w.ext).2).1 = (procs, none)) :
    (analyzeProcfile X a w).1 = (some (procs.map serviceOfProcess), none) := by
  simp [analyzeProcfile, callFileExists, callParseProcfile, h, Println, World.log, hp,
    procfileLoop_fst]

lemma analyzeProcfile_failed (X : Externals σ) (a : AnalyzerBase) (w : World σ)
    (procs : List Process) (err : Error)
    (h : (X.FileExists (X.Join a.RootDir "Procfile") w.ext).1 = true)
    (hp : (X.ParseProcfile (X.Join a.RootDir "Procfile")
      (X.FileExists (X.Join a.RootDir "Procfile") w.ext).2).1 = (procs, some err)) :
    analyzeProcfile X a w =
      ((none, some err),
        { ext := (X.ParseProcfile (X.Join a.RootDir "Procfile")
            (X.FileExists (X.Join a.RootDir "Procfile") w.ext).2).2,
          trace := w.trace ++ [.fileExists (X.Join a.RootDir "Procfile"),
            .print (" ".intercalate [X.MsgL1, "Parsing Procfile"] ++ "\n"),
            .parseProcfile (X.Join a.RootDir "Procfile")] }) := by
  simp [analyzeProcfile, callFileExists, callParseProcfile, h, Println, World.log, hp]

/-- C9: `analyzeProcfile` maps parsed entries to services one for one.  When
the Procfile does not exist it returns an empty, non-nil service list and no
error, and its only call is the existence test: the parser is not invoked.
When the file exists and the parser returns `N` entries and no error, it
returns exactly `N` services in the same order, the `i`-th having the `i`-th
entry's name and command and every other field zero.  When the parser returns
an error it returns a nil list and that error. -/
theorem analyzeProcfile_one_for_one (X : Externals σ) (a : AnalyzerBase) (w : World σ) :
    ((X.FileExists (X.Join a.RootDir "Procfile") w.ext).1 = false →
        (analyzeProcfile X a w).1 = (some [], none) ∧
          (analyzeProcfile X a w).2.trace =
            w.trace ++ [.fileExists (X.Join a.RootDir "Procfile")] ∧
          ∀ e ∈ (analyzeProcfile X a w).2.trace, e ∈ w.trace ∨ e.isParseProcfile = false) ∧
      (∀ procs : List Process,
        (X.FileExists (X.Join a.RootDir "Procfile") w.ext).1 = true →
        (X.ParseProcfile (X.Join a.RootDir "Procfile")
          (X.FileExists (X.Join a.RootDir "Procfile") w.ext).2).1 = (procs, none) →
        ∃ services : List Service,
          (analyzeProcfile X a w).1 = (some services, none) ∧
            services.length = procs.length ∧
            ∀ (i : Nat) (proc : Process), procs[i]? = some proc →
              services[i]? =
                some { Name := proc.Name, Command := proc.Command, EnvVars := [],
                       GitBranch := "", GitRepo := "", BuildRoot := "" }) ∧
      (∀ (procs : List Process) (err : Error),
        (X.FileExists (X.Join a.RootDir "Procfile") w.ext).1 = true →
        (X.ParseProcfile (X.Join a.RootDir "Procfile")
          (X.FileExists (X.Join a.RootDir "Procfile") w.ext).2).1 = (procs, some err) →
        (analyzeProcfile X a w).1 = (none, some err)) := by
  refine ⟨fun h => ?_, fun procs h hp => ?_, fun procs err h hp => ?_⟩
  · rw [analyzeProcfile_missing X a w h]
    refine ⟨rfl, rfl, ?_⟩
    intro e he
    simp only [List.mem_append, List.mem_singleton] at he
    rcases he with he | rfl
    · exact Or.inl he
    · exact Or.inr rfl
  · refine ⟨procs.map serviceOfProcess, analyzeProcfile_parsed X a w procs h hp,
      by simp, ?_⟩
    intro i proc hi
    simp [hi, serviceOfProcess]
  · rw [analyzeProcfile_failed X a w procs err h hp]

/-- Witness of C9 on the sample collaborators: a missing Procfile, a Procfile
of two entries, and a Procfile the parser rejects. -/
theorem analyzeProcfile_one_for_one_witness :
    (analyzeProcfile sampleExternals { RootDir := "app" } (sampleWorld "" none)).1 =
        (some [], none) ∧
      (∃ services : List Service,
        (analyzeProcfile sampleExternals { RootDir := "app" }
          (sampleWorld "" (some ([⟨"web", "rackup"⟩, ⟨"worker", "rake jobs:work"⟩],
            none)))).1 = (some services, none) ∧
          services.length = 2 ∧
          ∀ (i : Nat) (proc : Process),
            [(⟨"web", "rackup"⟩ : Process), ⟨"worker", "rake jobs:work"⟩][i]? = some proc →
              services[i]? =
                some { Name := proc.Name, Command := proc.Command, EnvVars := [],
                       GitBranch := "", GitRepo := "", BuildRoot := "" }) ∧
      (analyzeProcfile sampleExternals { RootDir := "app" }
        (sampleWorld "" (some ([], some "line 2: missing colon")))).1 =
        (none, some "line 2: missing colon") :=
  ⟨((analyzeProcfile_one_for_one sampleExternals { RootDir := "app" }
        (sampleWorld "" none)).1 rfl).1,
    (analyzeProcfile_one_for_one sampleExternals { RootDir := "app" }
        (sampleWorld "" (some ([⟨"web", "rackup"⟩, ⟨"worker", "rake jobs:work"⟩],
          none)))).2.1 [⟨"web", "rackup"⟩, ⟨"worker", "rake jobs:work"⟩] rfl rfl,
    (analyzeProcfile_one_for_one sampleExternals { RootDir := "app" }
        (sampleWorld "" (some ([], some "line 2: missing colon")))).2.2 []
      "line 2: missing colon" rfl rfl⟩

/-! ## `refineServices` -/

lemma refineEnvironmentVariables_fst (X : Externals σ) (service : Service) (w : World σ) :
    (refineEnvironmentVariables X service w).1 =
      { service with Command := (X.ParseEnvironmentVariables service.Command w.ext).1.1 } := by
  cases h : (X.ParseEnvironmentVariables service.Command w.ext).1.2 <;>
    simp only [refineEnvironmentVariables, callParseEnvironmentVariables, h]

lemma refineUniqueInt_fst (X : Externals σ) (service : Service) (w : World σ) :
    (refineUniqueInt X service w).1 =
      { service with Command := (X.ParseUniqueInt service.Command w.ext).1.1 } := by
  cases h : (X.ParseUniqueInt service.Command w.ext).1.2 <;>
    simp only [refineUniqueInt, callParseUniqueInt, h]

lemma refineEnvironmentVariables_ext (X : Externals σ) (service : Service) (w : World σ) :
    (refineEnvironmentVariables X service w).2.ext =
      (X.ParseEnvironmentVariables service.Command w.ext).2 := by
  cases h : (X.ParseEnvironmentVariables service.Command w.ext).1.2 <;>
    simp only [refineEnvironmentVariables, callParseEnvironmentVariables, h, Print,
      World.log]

lemma refineEnvironmentVariables_trace (X : Externals σ) (service : Service) (w : World σ) :
    ∃ printed : List Event, (∀ e ∈ printed, e.isPrint = true) ∧
      (refineEnvironmentVariables X service w).2.trace =
        w.trace ++ [.parseEnvironmentVariables service.Command] ++ printed := by
  cases h : (X.ParseEnvironmentVariables service.Command w.ext).1.2 with
  | none =>
    exact ⟨[], by simp, by simp only [refineEnvironmentVariables, callParseEnvironmentVariables, h, List.append_nil]⟩
  | some err =>
    exact ⟨[.print (X.MsgError ++
      " Failed to replace environment variable placeholder due to " ++ err ++ "\n")],
      by simp [Event.isPrint],
      by simp only [refineEnvironmentVariables, callParseEnvironmentVariables, h, Print, World.log]⟩

lemma refineUniqueInt_trace (X : Externals σ) (service : Service) (w : World σ) :
    ∃ printed : List Event, (∀ e ∈ printed, e.isPrint = true) ∧
      (refineUniqueInt X service w).2.trace =
        w.trace ++ [.parseUniqueInt service.Command] ++ printed := by
  cases h : (X.ParseUniqueInt service.Command w.ext).1.2 with
  | none =>
    exact ⟨[], by simp, by simp only [refineUniqueInt, callParseUniqueInt, h, List.append_nil]⟩
  | some err =>
    exact ⟨[.print (X.MsgError ++
      " Failed to replace UNIQUE_INT variable placeholder due to " ++ err ++ "\n")],
      by simp [Event.isPrint],
      by simp only [refineUniqueInt, callParseUniqueInt, h, Print, World.log]⟩

/-- The loop body on one service: the command becomes what the unique-integer
pass returns on what the environment pass returned, the other fields stay. -/
lemma refineService_fst (X : Externals σ) (service : Service) (w : World σ) :
    (refineService X service w).1 =
      { service with
        Command := (X.ParseUniqueInt
          (X.ParseEnvironmentVariables service.Command w.ext).1.1
          (X.ParseEnvironmentVariables service.Command w.ext).2).1.1 } := by
  unfold refineService
  rw [refineUniqueInt_fst, refineEnvironmentVariables_ext, refineEnvironmentVariables_fst]

lemma refineService_trace (X : Externals σ) (service : Service) (w : World σ) :
    ∃ printed1 printed2 : List Event,
      (∀ e ∈ printed1 ++ printed2, e.isPrint = true) ∧
      (refineService X service w).2.trace =
        w.trace ++ [.parseEnvironmentVariables service.Command] ++ printed1 ++
          [.parseUniqueInt (X.ParseEnvironmentVariables service.Command w.ext).1.1] ++
          printed2 := by
  obtain ⟨p1, hp1, h1⟩ := refineEnvironmentVariables_trace X service w
  obtain ⟨p2, hp2, h2⟩ := refineUniqueInt_trace X
    (refineEnvironmentVariables X service w).1 (refineEnvironmentVariables X service w).2
  refine ⟨p1, p2, ?_, ?_⟩
  · intro e he
    rcases List.mem_append.1 he with h | h
    · exact hp1 e h
    · exact hp2 e h
  · unfold refineService
    rw [h2, h1, refineEnvironmentVariables_fst]

lemma refineServices_append (X : Externals σ) (l1 l2 : List Service) (w : World σ) :
    refineServices X (l1 ++ l2) w =
      ((refineServices X l1 w).1 ++ (refineServices X l2 (refineServices X l1 w).2).1,
        (refineServices X l2 (refineServices X l1 w).2).2) := by
  induction l1 generalizing w with
  | nil => simp [refineServices]
  | cons s rest ih => simp [refineServices, ih]

lemma refineServices_length (X : Externals σ) (l : List Service) (w : World σ) :
    (refineServices X l w).1.length = l.length := by
  induction l generalizing w with
  | nil => simp [refineServices]
  | cons s rest ih => simp [refineServices, ih]

lemma refineServices_names (X : Externals σ) (l : List Service) (w : World σ) :
    (refineServices X l w).1.map Service.Name = l.map Service.Name := by
  induction l generalizing w with
  | nil => simp [refineServices]
  | cons s rest ih => simp [refineServices, ih, refineService_fst]

lemma refineServices_singleton (X : Externals σ) (s : Service) (w : World σ) :
    refineServices X [s] w = ([(refineService X s w).1], (refineService X s w).2) := by
  simp [refineServices]

/-- The list up to position `i` followed by the service at `i` is the list up
to position `i + 1`. -/
lemma take_succ_of_getElem? {l : List Service} {i : Nat} {s : Service}
    (h : l[i]? = some s) : l.take (i + 1) = l.take i ++ [s] := by
  rw [List.take_succ, h]
  rfl

lemma refineServices_getElem? (X : Externals σ) (l : List Service) (w : World σ)
    (i : Nat) (s : Service) (h : l[i]? = some s) :
    (refineServices X l w).1[i]? =
      some (refineService X s (refineServices X (l.take i) w).2).1 := by
  have hlt : i < l.length := (List.getElem?_eq_some.1 h).1
  have hsplit : l = l.take (i + 1) ++ l.drop (i + 1) := (List.take_append_drop _ _).symm
  rw [take_succ_of_getElem? h] at hsplit
  have hlen : (refineServices X (l.take i) w).1.length = i := by
    rw [refineServices_length, List.length_take]
    omega
  conv_lhs => rw [hsplit]
  rw [refineServices_append, refineServices_append, refineServices_singleton]
  simp only [List.append_assoc]
  rw [List.getElem?_append_right (by omega)]
  simp [hlen]

/-- C10: `refineServices` runs both substitution passes on every service, in a
fixed order, whatever the first returns.  For every service list, the service
at each position ends with the command the unique-integer pass returned when
applied to the string the environment-variable pass returned on the original
command, its other fields unchanged; while that service is processed the
environment-variable pass is called on the original command and then the
unique-integer pass on the string the first returned, whether or not the first
returned an error, with nothing but diagnostic prints around them; and the
list keeps its length, its order and its service names. -/
theorem refineServices_both_passes_in_order (X : Externals σ) (services : List Service)
    (w : World σ) :
    (refineServices X services w).1.length = services.length ∧
      (refineServices X services w).1.map Service.Name = services.map Service.Name ∧
      ∀ (i : Nat) (s : Service), services[i]? = some s →
        (refineServices X services w).1[i]? =
            some { s with
              Command := (X.ParseUniqueInt
                (X.ParseEnvironmentVariables s.Command
                  (refineServices X (services.take i) w).2.ext).1.1
                (X.ParseEnvironmentVariables s.Command
                  (refineServices X (services.take i) w).2.ext).2).1.1 } ∧
          ∃ printed1 printed2 : List Event,
            (∀ e ∈ printed1 ++ printed2, e.isPrint = true) ∧
            (refineServices X (services.take (i + 1)) w).2.trace =
              (refineServices X (services.take i) w).2.trace ++
                [.parseEnvironmentVariables s.Command] ++ printed1 ++
                [.parseUniqueInt (X.ParseEnvironmentVariables s.Command
                  (refineServices X (services.take i) w).2.ext).1.1] ++ printed2 := by
  refine ⟨refineServices_length X services w, refineServices_names X services w, ?_⟩
  intro i s h
  constructor
  · rw [refineServices_getElem? X services w i s h, refineService_fst]
  · rw [take_succ_of_getElem? h, refineServices_append, refineServices_singleton]
    exact refineService_trace X s _

/-- Witness of C10 on the sample collaborators: the second of two services,
whose environment pass fails, is still given to the unique-integer pass. -/
theorem refineServices_both_passes_in_order_witness :
    (refineServices sampleExternals
        [{ Name := "web", Command := "rackup" },
          { Name := "worker", Command := "rake $JOBS" }] (sampleWorld "" none)).1[1]? =
      some { Name := "worker", Command := "" } :=
  ((refineServices_both_passes_in_order sampleExternals
      [{ Name := "web", Command := "rackup" },
        { Name := "worker", Command := "rake $JOBS" }] (sampleWorld "" none)).2.2 1
    { Name := "worker", Command := "rake $JOBS" } rfl).1

/-- C6, as stated, fails: on the sample collaborators the environment pass
returns an error and the empty string for a command with an undefined
variable, and the unique-integer pass likewise for a command with a hash sign;
after either pass the command is the empty string, not the command the pass
was given, and `refineServices` returns the services with those commands. -/
theorem refineServices_failed_pass_overwrites :
    (sampleExternals.ParseEnvironmentVariables "serve -p $PORT"
        (sampleWorld "" none).ext).1 = ("", some "variable is not defined") ∧
      (refineEnvironmentVariables sampleExternals
        { Name := "web", Command := "serve -p $PORT" } (sampleWorld "" none)).1.Command = "" ∧
      (sampleExternals.ParseUniqueInt "serve -p #"
        (sampleWorld "" none).ext).1 = ("", some "no integer available") ∧
      (refineUniqueInt sampleExternals
        { Name := "web", Command := "serve -p #" } (sampleWorld "" none)).1.Command = "" ∧
      (refineServices sampleExternals
        [{ Name := "web", Command := "serve -p $PORT" },
          { Name := "worker", Command := "serve -p #" }] (sampleWorld "" none)).1 =
        [{ Name := "web", Command := "" }, { Name := "worker", Command := "" }] ∧
      ¬ ∀ (X : Externals Sample) (service : Service) (w : World Sample) (err : Error),
        (X.ParseEnvironmentVariables service.Command w.ext).1.2 = some err →
          (refineEnvironmentVariables X service w).1.Command = service.Command := by
  refine ⟨by decide, by decide, by decide, by decide, by decide, fun h => ?_⟩
  have h1 := h sampleExternals { Name := "web", Command := "serve -p $PORT" }
    (sampleWorld "" none) "variable is not defined" (by decide)
  revert h1
  decide

/-- C6, amended: in `refineServices` a pass that returns an error leaves in the
command the string it returned alongside that error.  For every service, if
`ParseEnvironmentVariables` returns an error, the command after that pass is
the string that call returned, the other fields being untouched, so the
command is the original one exactly when the failing pass returns its input;
and likewise for `ParseUniqueInt` and the command it was given. -/
theorem refineServices_failed_pass_keeps_returned_string (X : Externals σ)
    (service : Service) (w : World σ) :
    (∀ err : Error, (X.ParseEnvironmentVariables service.Command w.ext).1.2 = some err →
        (refineEnvironmentVariables X service w).1 =
            { service with
              Command := (X.ParseEnvironmentVariables service.Command w.ext).1.1 } ∧
          ((refineEnvironmentVariables X service w).1.Command = service.Command ↔
            (X.ParseEnvironmentVariables service.Command w.ext).1.1 = service.Command)) ∧
      (∀ err : Error, (X.ParseUniqueInt service.Command w.ext).1.2 = some err →
        (refineUniqueInt X service w).1 =
            { service with Command := (X.ParseUniqueInt service.Command w.ext).1.1 } ∧
          ((refineUniqueInt X service w).1.Command = service.Command ↔
            (X.ParseUniqueInt service.Command w.ext).1.1 = service.Command)) := by
  refine ⟨fun err _ => ⟨refineEnvironmentVariables_fst X service w, ?_⟩,
    fun err _ => ⟨refineUniqueInt_fst X service w, ?_⟩⟩
  · rw [refineEnvironmentVariables_fst]
  · rw [refineUniqueInt_fst]

/-- Witness of the amended C6 on the sample collaborators, whose failing
passes return the empty string. -/
theorem refineServices_failed_pass_keeps_returned_string_witness :
    (refineEnvironmentVariables sampleExternals
        { Name := "web", Command := "serve -p $PORT" } (sampleWorld "" none)).1 =
        { Name := "web", Command := "" } ∧
      (refineUniqueInt sampleExternals
        { Name := "web", Command := "serve -p #" } (sampleWorld "" none)).1 =
        { Name := "web", Command := "" } :=
  ⟨((refineServices_failed_pass_keeps_returned_string sampleExternals
        { Name := "web", Command := "serve -p $PORT" } (sampleWorld "" none)).1
      "variable is not defined" (by decide)).1,
    ((refineServices_failed_pass_keeps_returned_string sampleExternals
        { Name := "web", Command := "serve -p #" } (sampleWorld "" none)).2
      "no integer available" (by decide)).1⟩

/-! ## `AnalyzeServices` -/

lemma analyzeProcfile_trace (X : Externals σ) (b : AnalyzerBase) (w : World σ) :
    ∃ added : List Event, (analyzeProcfile X b w).2.trace = w.trace ++ added ∧
      ∀ e ∈ added, e.isFillServices = false ∧ e.isSubstitution = false := by
  cases h : (X.FileExists (X.Join b.RootDir "Procfile") w.ext).1 with
  | false =>
    rw [analyzeProcfile_missing X b w h]
    refine ⟨[.fileExists (X.Join b.RootDir "Procfile")], rfl, ?_⟩
    intro e he
    rw [List.mem_singleton.1 he]
    exact ⟨rfl, rfl⟩
  | true =>
    cases hp : (X.ParseProcfile (X.Join b.RootDir "Procfile")
        (X.FileExists (X.Join b.RootDir "Procfile") w.ext).2).1 with
    | mk procs err =>
      cases err with
      | some err =>
        rw [analyzeProcfile_failed X b w procs err h hp]
        refine ⟨_, rfl, ?_⟩
        intro e he
        simp only [List.mem_cons, List.mem_singleton, List.not_mem_nil, or_false] at he
        rcases he with rfl | rfl | rfl <;> exact ⟨rfl, rfl⟩
      | none =>
        refine ⟨[.fileExists (X.Join b.RootDir "Procfile"),
          .print (" ".intercalate [X.MsgL1, "Parsing Procfile"] ++ "\n"),
          .parseProcfile (X.Join b.RootDir "Procfile")] ++
          procs.map (fun p =>
            Event.print (X.MsgL2 ++ " ----> Found Procfile item " ++ p.Name ++ "\n")), ?_, ?_⟩
        · simp [analyzeProcfile, callFileExists, callParseProcfile, h, Println, World.log,
            hp, procfileLoop_snd]
        · intro e he
          simp only [List.mem_append, List.mem_cons, List.mem_singleton, List.not_mem_nil,
            or_false, List.mem_map] at he
          rcases he with (rfl | rfl | rfl) | ⟨p, _, rfl⟩ <;> exact ⟨rfl, rfl⟩

/-- C4: `AnalyzeServices` exposes no partial result on a fatal error.  For
every input, if Procfile parsing fails it returns a nil service list together
with that error, and nothing it did was a call of the analyzer's `FillServices`
or of a substitution pass.  If `FillServices` returns an error it returns a nil
service list together with that same error, it stops right after that call,
the services are left as `FillServices` left them (neither refined nor stamped
with the project context) and no substitution pass was called. -/
theorem AnalyzeServices_no_partial_result (X : Externals σ) (b : AnalyzerBase)
    (a : Analyzer σ) (envVars : List EnvVar) (gitBranch gitURL buildRoot : String)
    (w : World σ) :
    (∀ err : Error, (analyzeProcfile X b w).1.2 = some err →
        (AnalyzeServices X b a envVars gitBranch gitURL buildRoot w).result = none ∧
          (AnalyzeServices X b a envVars gitBranch gitURL buildRoot w).err = some err ∧
          ∃ added : List Event,
            (AnalyzeServices X b a envVars gitBranch gitURL buildRoot w).world.trace =
              w.trace ++ added ∧
            ∀ e ∈ added, e.isFillServices = false ∧ e.isSubstitution = false) ∧
      ((analyzeProcfile X b w).1.2 = none →
        ∀ err : Error,
          (a.FillServices ((analyzeProcfile X b w).1.1.getD [])
            (analyzeProcfile X b w).2.ext).1.2 = some err →
          (AnalyzeServices X b a envVars gitBranch gitURL buildRoot w).result = none ∧
            (AnalyzeServices X b a envVars gitBranch gitURL buildRoot w).err = some err ∧
            (AnalyzeServices X b a envVars gitBranch gitURL buildRoot w).services =
              (a.FillServices ((analyzeProcfile X b w).1.1.getD [])
                (analyzeProcfile X b w).2.ext).1.1 ∧
            (AnalyzeServices X b a envVars gitBranch gitURL buildRoot w).world =
              { ext := (a.FillServices ((analyzeProcfile X b w).1.1.getD [])
                  (analyzeProcfile X b w).2.ext).2,
                trace := (analyzeProcfile X b w).2.trace ++
                  [.fillServices ((analyzeProcfile X b w).1.1.getD [])] } ∧
            ∃ added : List Event,
              (AnalyzeServices X b a envVars gitBranch gitURL buildRoot w).world.trace =
                w.trace ++ added ∧
              ∀ e ∈ added, e.isSubstitution = false) := by
  obtain ⟨added, hadded, hno⟩ := analyzeProcfile_trace X b w
  constructor
  · intro err herr
    simp only [AnalyzeServices, herr]
    refine ⟨trivial, trivial, added ++
      [.print (X.MsgError ++ " Failed to parse Procfile due to " ++ err ++ "\n")], ?_, ?_⟩
    · simp [Print, World.log, hadded]
    · intro e he
      rcases List.mem_append.1 he with h | h
      · exact hno e h
      · rw [List.mem_singleton.1 h]
        exact ⟨rfl, rfl⟩
  · intro hok err herr
    simp only [AnalyzeServices, hok, callFillServices, herr]
    refine ⟨trivial, trivial, trivial, trivial,
      added ++ [.fillServices ((analyzeProcfile X b w).1.1.getD [])], ?_, ?_⟩
    · simp [hadded]
    · intro e he
      rcases List.mem_append.1 he with h | h
      · exact (hno e h).2
      · rw [List.mem_singleton.1 h]
        rfl

/-- Witness of C4 on the sample collaborators: a Procfile the parser rejects,
and an analyzer that fails after adding a service whose command holds a
placeholder, which is left as it is. -/
theorem AnalyzeServices_no_partial_result_witness :
    ((AnalyzeServices sampleExternals { RootDir := "app" } workerAnalyzer [] "main"
          "git@example.com:app.git" "."
          (sampleWorld "" (some ([], some "line 2: missing colon")))).result = none ∧
        (AnalyzeServices sampleExternals { RootDir := "app" } workerAnalyzer [] "main"
          "git@example.com:app.git" "."
          (sampleWorld "" (some ([], some "line 2: missing colon")))).err =
          some "line 2: missing colon") ∧
      ((AnalyzeServices sampleExternals { RootDir := "app" } failingAnalyzer [] "main"
          "git@example.com:app.git" "."
          (sampleWorld "" (some ([⟨"web", "rackup"⟩], none)))).result = none ∧
        (AnalyzeServices sampleExternals { RootDir := "app" } failingAnalyzer [] "main"
          "git@example.com:app.git" "."
          (sampleWorld "" (some ([⟨"web", "rackup"⟩], none)))).err =
          some "unsupported framework") :=
  ⟨⟨((AnalyzeServices_no_partial_result sampleExternals { RootDir := "app" }
          workerAnalyzer [] "main" "git@example.com:app.git" "."
          (sampleWorld "" (some ([], some "line 2: missing colon")))).1
        "line 2: missing colon" rfl).1,
      ((AnalyzeServices_no_partial_result sampleExternals { RootDir := "app" }
          workerAnalyzer [] "main" "git@example.com:app.git" "."
          (sampleWorld "" (some ([], some "line 2: missing colon")))).1
        "line 2: missing colon" rfl).2.1⟩,
    ⟨((AnalyzeServices_no_partial_result sampleExternals { RootDir := "app" }
          failingAnalyzer [] "main" "git@example.com:app.git" "."
          (sampleWorld "" (some ([⟨"web", "rackup"⟩], none)))).2 rfl
        "unsupported framework" rfl).1,
      ((AnalyzeServices_no_partial_result sampleExternals { RootDir := "app" }
          failingAnalyzer [] "main" "git@example.com:app.git" "."
          (sampleWorld "" (some ([⟨"web", "rackup"⟩], none)))).2 rfl
        "unsupported framework" rfl).2.1⟩⟩

/-! ## `ConfirmDatabases` -/

lemma confirmLoop_noninteractive (X : Externals σ) (a : AnalyzerBase)
    (hmode : a.ShouldPrompt = false)
    (hask : ∀ (level message : String) (d : Bool) (s : σ),
      (X.AskYesOrNo level message d false s).1 = d)
    (found : List String) (dbs : Lister) (w : World σ) :
    (confirmLoop X a found dbs w).1.Items = dbs.Items ++ found ∧
      ∃ added : List Event, (confirmLoop X a found dbs w).2.trace = w.trace ++ added ∧
        ∀ e ∈ added, e.isReadString = false := by
  induction found generalizing dbs w with
  | nil => exact ⟨by simp [confirmLoop], [], by simp [confirmLoop], by simp⟩
  | cons db rest ih =>
    simp only [confirmLoop, hmode, callAskYesOrNo, hask, Bool.not_false, if_true]
    obtain ⟨hitems, added, htrace, hno⟩ := ih (dbs.Add [db])
      { ext := (X.AskYesOrNo X.MsgL2 ("----> Found " ++ db ++ ", confirm?") true false
          (Println [X.MsgL2, "----> Found " ++ db, X.MsgReset] w).ext).2,
        trace := (Println [X.MsgL2, "----> Found " ++ db, X.MsgReset] w).trace ++
          [.askYesOrNo X.MsgL2 ("----> Found " ++ db ++ ", confirm?") true false] }
    refine ⟨by rw [hitems]; simp [Lister.Add], ?_⟩
    refine ⟨[.print (" ".intercalate [X.MsgL2, "----> Found " ++ db, X.MsgReset] ++ "\n"),
      .askYesOrNo X.MsgL2 ("----> Found " ++ db ++ ", confirm?") true false] ++ added,
      ?_, ?_⟩
    · rw [htrace]
      simp [Println, World.log]
    · intro e he
      simp only [List.mem_append, List.mem_cons, List.mem_singleton, List.not_mem_nil,
        or_false] at he
      rcases he with (rfl | rfl) | h
      · rfl
      · rfl
      · exact hno e h

/-- C7: in non-interactive mode `ConfirmDatabases` returns exactly the detected
database list.  With `ShouldPrompt` false and `AskYesOrNo` returning its
supplied default when not interactive, for every detected list, the empty one
included, the output has the same items in the same order and no other entry,
and nothing the call does is a read of an input line; when nothing was
detected its one action is the closing prompt, asked with default true. -/
theorem ConfirmDatabases_noninteractive (X : Externals σ) (a : AnalyzerBase)
    (foundDbs : Lister) (w : World σ) (hmode : a.ShouldPrompt = false)
    (hask : ∀ (level message : String) (d : Bool) (s : σ),
      (X.AskYesOrNo level message d false s).1 = d) :
    (ConfirmDatabases X a foundDbs w).1.Items = foundDbs.Items ∧
      (∃ added : List Event,
        (ConfirmDatabases X a foundDbs w).2.trace = w.trace ++ added ∧
          ∀ e ∈ added, e.isReadString = false) ∧
      (foundDbs.Items = [] →
        (ConfirmDatabases X a foundDbs w).2.trace =
          w.trace ++ [.askYesOrNo X.MsgL1 "No databases found. Add manually?" true false]) := by
  obtain ⟨hitems, added, htrace, hno⟩ :=
    confirmLoop_noninteractive X a hmode hask foundDbs.Items {} w
  refine ⟨?_, ?_, ?_⟩
  · simp only [ConfirmDatabases, hmode, Bool.and_false, Bool.false_eq_true, if_false]
    simpa using hitems
  · refine ⟨added ++ [.askYesOrNo X.MsgL1
      (if foundDbs.Items.length > 0 then "Add any other databases?"
        else "No databases found. Add manually?")
      (if foundDbs.Items.length > 0 then false else true) false], ?_, ?_⟩
    · simp only [ConfirmDatabases, hmode, Bool.and_false, Bool.false_eq_true, if_false,
        callAskYesOrNo, htrace, List.append_assoc]
    · intro e he
      rcases List.mem_append.1 he with h | h
      · exact hno e h
      · rw [List.mem_singleton.1 h]
        rfl
  · intro hempty
    simp [ConfirmDatabases, hmode, callAskYesOrNo, hempty, confirmLoop]

/-- Witness of C7 on the sample collaborators, with input waiting on standard
input that is not read. -/
theorem ConfirmDatabases_noninteractive_witness :
    (ConfirmDatabases sampleExternals { ShouldPrompt := false }
        { Items := ["mysql", "redis"] } (sampleWorld "n\nn\ny\npostgres\n" none)).1.Items =
      ["mysql", "redis"] ∧
    (ConfirmDatabases sampleExternals { ShouldPrompt := false }
        { Items := [] } (sampleWorld "y\npostgres\n" none)).1.Items = [] :=
  ⟨(ConfirmDatabases_noninteractive sampleExternals { ShouldPrompt := false }
      { Items := ["mysql", "redis"] } (sampleWorld "n\nn\ny\npostgres\n" none) rfl
      (fun _ _ _ _ => rfl)).1,
    (ConfirmDatabases_noninteractive sampleExternals { ShouldPrompt := false }
      { Items := [] } (sampleWorld "y\npostgres\n" none) rfl (fun _ _ _ _ => rfl)).1⟩

lemma confirmLoop_interactive (X : Externals σ) (a : AnalyzerBase)
    (hmode : a.ShouldPrompt = true) (found : List String) (dbs : Lister) (w : World σ) :
    confirmLoop X a found dbs w =
      ({ Items := dbs.Items ++ acceptedEntries found (confirmationAnswers X found w).1 },
        (confirmationAnswers X found w).2) := by
  induction found generalizing dbs w with
  | nil => simp [confirmLoop, confirmationAnswers, acceptedEntries]
  | cons db rest ih =>
    simp only [confirmLoop, hmode, Bool.not_true, Bool.false_eq_true, if_false, ih,
      confirmationAnswers, acceptedEntries]
    cases (callAskYesOrNo X X.MsgL2 ("----> Found " ++ db ++ ", confirm?") true true w).1 <;>
      simp [Lister.Add]

lemma acceptedEntries_all (found : List String) (answers : List Bool)
    (hlen : answers.length = found.length) (hall : ∀ answer ∈ answers, answer = true) :
    acceptedEntries found answers = found := by
  induction found generalizing answers with
  | nil => cases answers <;> rfl
  | cons db rest ih =>
    cases answers with
    | nil => simp at hlen
    | cons b bs =>
      have hb : b = true := hall b (List.mem_cons_self _ _)
      subst hb
      simp only [acceptedEntries, if_true]
      rw [ih bs (by simpa using hlen) (fun x hx => hall x (List.mem_cons_of_mem _ hx))]

lemma confirmationAnswers_length (X : Externals σ) (found : List String) (w : World σ) :
    (confirmationAnswers X found w).1.length = found.length := by
  induction found generalizing w with
  | nil => rfl
  | cons db rest ih => simp [confirmationAnswers, ih]

lemma ConfirmDatabases_interactive_items (X : Externals σ) (a : AnalyzerBase)
    (foundDbs : Lister) (w : World σ) (hmode : a.ShouldPrompt = true) :
    (ConfirmDatabases X a foundDbs w).1.Items =
      acceptedEntries foundDbs.Items (confirmationAnswers X foundDbs.Items w).1 ++
        manualEntries X foundDbs.Items w := by
  have hmsg : (if foundDbs.Items.length > 0 then "Add any other databases?"
      else "No databases found. Add manually?") =
      (if foundDbs.Items.isEmpty then "No databases found. Add manually?"
        else "Add any other databases?") := by
    cases foundDbs.Items <;> simp
  have hdef : (if foundDbs.Items.length > 0 then false else true) =
      foundDbs.Items.isEmpty := by
    cases foundDbs.Items <;> simp
  simp only [ConfirmDatabases, hmode, Bool.and_true, confirmLoop_interactive X a hmode,
    hmsg, hdef, callAskYesOrNo, manualEntries, addOthersAnswer, callReadString, Println,
    Print, World.log]
  cases (X.AskYesOrNo X.MsgL1
      (if foundDbs.Items.isEmpty then "No databases found. Add manually?"
        else "Add any other databases?")
      foundDbs.Items.isEmpty true (confirmationAnswers X foundDbs.Items w).2.ext).1 with
  | false => simp
  | true =>
    simp only [if_true]
    rcases hr : (X.ReadString (X.AskYesOrNo X.MsgL1
      (if foundDbs.Items.isEmpty then "No databases found. Add manually?"
        else "Add any other databases?")
      foundDbs.Items.isEmpty true (confirmationAnswers X foundDbs.Items w).2.ext).2).1
      with ⟨line, _ | err⟩ <;> simp [Lister.Add]

/-- C8: in interactive mode `ConfirmDatabases` returns, for every detected list
and every sequence of answers, the detected entries whose confirmation was
accepted, in detection order, followed by the whitespace-separated tokens of
the one input line when the closing prompt (default false if the detected list
is non-empty, true if it is empty) was answered affirmatively and the read
succeeded, and by nothing when it was declined or the read failed.  So a
detected list all of whose entries are accepted, with no additions, is
returned as it is, as for `["mysql", "redis"]`; and an empty detected list with
the line `postgres elasticsearch` gives `["postgres", "elasticsearch"]`. -/
theorem ConfirmDatabases_interactive (X : Externals σ) (a : AnalyzerBase)
    (foundDbs : Lister) (w : World σ) (hmode : a.ShouldPrompt = true) :
    (ConfirmDatabases X a foundDbs w).1.Items =
        acceptedEntries foundDbs.Items (confirmationAnswers X foundDbs.Items w).1 ++
          manualEntries X foundDbs.Items w ∧
      ((∀ answer ∈ (confirmationAnswers X foundDbs.Items w).1, answer = true) →
        (addOthersAnswer X foundDbs.Items w).1 = false →
        (ConfirmDatabases X a foundDbs w).1.Items = foundDbs.Items) ∧
      (foundDbs.Items = [] → (addOthersAnswer X [] w).1 = true →
        ∀ line : String, (X.ReadString (addOthersAnswer X [] w).2).1 = (line, none) →
          (ConfirmDatabases X a foundDbs w).1.Items = Fields line) ∧
      (foundDbs.Items = [] → (addOthersAnswer X [] w).1 = true →
        ∀ (line : String) (err : Error),
          (X.ReadString (addOthersAnswer X [] w).2).1 = (line, some err) →
          (ConfirmDatabases X a foundDbs w).1.Items = []) ∧
      Fields "postgres elasticsearch" = ["postgres", "elasticsearch"] ∧
      Fields "postgres elasticsearch\n" = ["postgres", "elasticsearch"] := by
  have key := ConfirmDatabases_interactive_items X a foundDbs w hmode
  refine ⟨key, ?_, ?_, ?_, by decide, by decide⟩
  · intro hall hno
    rw [key, acceptedEntries_all _ _ (confirmationAnswers_length X _ w) hall]
    simp [manualEntries, hno]
  · intro hempty hyes line hline
    rw [key, hempty]
    simp [manualEntries, hyes, hline, confirmationAnswers, acceptedEntries]
  · intro hempty hyes line err hline
    rw [key, hempty]
    simp [manualEntries, hyes, hline, confirmationAnswers, acceptedEntries]

/-- Witness of C8 on the sample collaborators: `["mysql", "redis"]` with both
confirmations accepted and the additions declined, and an empty detected list
with the line `postgres elasticsearch`. -/
theorem ConfirmDatabases_interactive_witness :
    (ConfirmDatabases sampleExternals { ShouldPrompt := true }
        { Items := ["mysql", "redis"] } (sampleWorld "y\n\nn\n" none)).1.Items =
      ["mysql", "redis"] ∧
    (ConfirmDatabases sampleExternals { ShouldPrompt := true }
        { Items := [] } (sampleWorld "y\npostgres elasticsearch\n" none)).1.Items =
      ["postgres", "elasticsearch"] :=
  ⟨(ConfirmDatabases_interactive sampleExternals { ShouldPrompt := true }
      { Items := ["mysql", "redis"] } (sampleWorld "y\n\nn\n" none) rfl).2.1
      (by decide) (by decide),
    ((ConfirmDatabases_interactive sampleExternals { ShouldPrompt := true }
      { Items := [] } (sampleWorld "y\npostgres elasticsearch\n" none) rfl).2.2.1
      rfl (by decide) "postgres elasticsearch\n" (by decide)).trans (by decide)⟩

end Packs
